import Mathlib

/-!
Shallow embedding of the PR review bot (`github_bot.py`, `models.py`) and of the
record store it mutates.  Time instants are modelled as natural numbers:
minutes since an epoch placed at a Monday 00:00 in the reviewer's local zone,
so that `weekday = t / 1440 % 7` matches Python's `datetime.weekday()`
(Monday = 0) and `t % 1440` is the local time of day in minutes.
-/

namespace LdkBot

/-- `PRStatus` enum from `models.py`. -/
inductive PRStatus
  | pendingReviewerChoice
  | draft
  | pendingReview
  | reviewed
  | closed
deriving DecidableEq, Repr

/-- A `pull_request` row (`models.py`, class `PullRequest`). -/
structure PRRecord where
  prNumber : Nat
  repoName : String
  prTitle : String
  status : PRStatus
  createdAt : Nat
  lastReminderSent : Option Nat
  reminderCount : Nat
  initialCommentId : Option Nat
deriving DecidableEq, Repr

/-- A `review` row (`models.py`, class `Review`).  Note that the source model
has no reminder-count or last-reminder column on reviews; only the columns
actually declared in `models.py` are present here. -/
structure ReviewRow where
  rowId : Nat
  repoName : String
  prNumber : Nat
  reviewer : String
  requestedAt : Nat
  completedAt : Option Nat
  reviewUrl : Option String
deriving DecidableEq, Repr

/-- The transactional record store: the two tables plus the autoincrement
counter for review ids. -/
structure Store where
  prs : List PRRecord
  reviews : List ReviewRow
  nextReviewId : Nat
deriving DecidableEq, Repr

/-- Predicate of `PullRequest.query.filter_by(pr_number=..., repo_name=...)`. -/
def matchPR (repo : String) (num : Nat) (p : PRRecord) : Bool :=
  p.prNumber == num && p.repoName == repo

/-- `PullRequest.query.filter_by(pr_number=..., repo_name=...).first()`. -/
def findPR (s : Store) (repo : String) (num : Nat) : Option PRRecord :=
  s.prs.find? (matchPR repo num)

/-- Assignment `pr_record.status = ...` followed by commit: rewrites the
status of the matching pull-request row(s). -/
def setPRStatus (s : Store) (repo : String) (num : Nat) (st : PRStatus) : Store :=
  { s with prs := s.prs.map (fun p => if matchPR repo num p then { p with status := st } else p) }

/-- Predicate of `Review.query.filter_by(pr_number=..., repo_name=...,
reviewer=..., completed_at=None)`: an outstanding review request for one
(repo, PR, reviewer) tuple. -/
def matchPending (repo : String) (num : Nat) (reviewer : String) (r : ReviewRow) : Bool :=
  r.prNumber == num && r.repoName == repo && r.reviewer == reviewer && r.completedAt.isNone

/-- `Review.query.filter_by(..., completed_at=None).first()`. -/
def findPendingReview (s : Store) (repo : String) (num : Nat) (reviewer : String) : Option ReviewRow :=
  s.reviews.find? (matchPending repo num reviewer)

/-- Number of outstanding (completion-null) review rows for one
(repo, PR, reviewer) tuple. -/
def outstandingCount (s : Store) (repo : String) (num : Nat) (reviewer : String) : Nat :=
  (s.reviews.filter (matchPending repo num reviewer)).length

/-- `db.session.add(new_review)` + commit: the row is appended and the
autoincrement id advances. -/
def insertReview (s : Store) (r : ReviewRow) : Store :=
  { s with reviews := s.reviews ++ [r], nextReviewId := s.nextReviewId + 1 }

/-- `Review(repo_name=..., pr_number=..., reviewer=...)`: a fresh outstanding
row, `requested_at` defaulting to the current time. -/
def newPendingRow (s : Store) (repo : String) (num : Nat) (reviewer : String) (now : Nat) : ReviewRow :=
  { rowId := s.nextReviewId, repoName := repo, prNumber := num, reviewer := reviewer,
    requestedAt := now, completedAt := none, reviewUrl := none }

/-- The `MIN_PR_ID` dictionary in `github_bot.py`; lookup of a repo not in the
dictionary raises `KeyError`, hence the `Option`. -/
def minPrId : String → Option Nat
  | "lightningdevkit/rust-lightning" => some 3634
  | "lightningdevkit/ldk-node" => some 512
  | _ => none

/-- The fields of the webhook `pull_request` payload that the handlers read. -/
structure PRPayload where
  number : Nat
  repoFullName : String
  title : String
  isDraft : Bool
  authorLogin : String
  requestedReviewers : List String
deriving DecidableEq, Repr

/-- Python truthiness of the nullable integer `initial_comment_id`
(`if pr_record.initial_comment_id:`): `None` and `0` are falsy. -/
def truthyCommentId : Option Nat → Bool
  | none => false
  | some cid => cid != 0

/-- `GitHubBot._add_pending_review`.  The `assert pr_record is not None` is
modelled as the error case; otherwise the status is set to `PENDING_REVIEW`
and a new outstanding row is inserted unless one already exists. -/
def addPendingReview (s : Store) (repo : String) (num : Nat) (reviewer : String) (now : Nat) :
    Except Unit Store :=
  match findPR s repo num with
  | none => .error ()
  | some _ =>
    let s1 := setPRStatus s repo num .pendingReview
    match findPendingReview s1 repo num reviewer with
    | some _ => .ok s1
    | none => .ok (insertReview s1 (newPendingRow s1 repo num reviewer now))

/-- `GitHubBot._handle_review_requested`.  Mirrors the source control flow:
`MIN_PR_ID` lookup (a missing repo key raises), the low-number filter, the
untracked-PR early return, the status write, the outstanding-row re-check,
the `assert pr_record.initial_comment_id is not None`, the external comment
update (no store effect), and finally `_add_pending_review`. -/
def handleReviewRequested (s : Store) (pr : PRPayload) (reviewer : String) (now : Nat) :
    Except Unit Store :=
  match minPrId pr.repoFullName with
  | none => .error ()
  | some m =>
    if pr.number < m then .ok s
    else
      match findPR s pr.repoFullName pr.number with
      | none => .ok s
      | some rec =>
        let s1 := setPRStatus s pr.repoFullName pr.number .pendingReview
        match findPendingReview s1 pr.repoFullName pr.number reviewer with
        | some _ => .ok s1
        | none =>
          if rec.initialCommentId.isSome then
            addPendingReview s1 pr.repoFullName pr.number reviewer now
          else .error ()

/-- `GitHubBot._handle_ready_for_review`.  The `PENDING_REVIEWER_CHOICE`
transition and comment update are guarded by `if pr_record and
pr_record.initial_comment_id:` (Python truthiness); afterwards
`_add_pending_review` runs for every requested reviewer in the payload,
regardless of that guard. -/
def handleReadyForReview (s : Store) (pr : PRPayload) (now : Nat) : Except Unit Store :=
  let s1 :=
    match findPR s pr.repoFullName pr.number with
    | some rec =>
      if truthyCommentId rec.initialCommentId then
        setPRStatus s pr.repoFullName pr.number .pendingReviewerChoice
      else s
    | none => s
  pr.requestedReviewers.foldlM (fun st r => addPendingReview st pr.repoFullName pr.number r now) s1

/-- The deletion loop over `Review.query.filter(Review.pr_number == ...,
Review.repo_name == ...)` in `_handle_converted_to_draft`: every review row
of the PR (completed or not) is removed. -/
def deleteReviewsOfPR (s : Store) (repo : String) (num : Nat) : Store :=
  { s with reviews := s.reviews.filter (fun r => !(r.prNumber == num && r.repoName == repo)) }

/-- `GitHubBot._handle_converted_to_draft`.  The review query has no
`completed_at` filter: every review row of the PR is deleted, then the
status is set to `DRAFT`.  The comment update is an external call with no
store effect. -/
def handleConvertedToDraft (s : Store) (pr : PRPayload) : Store :=
  match findPR s pr.repoFullName pr.number with
  | none => s
  | some _ =>
    let s1 := deleteReviewsOfPR s pr.repoFullName pr.number
    setPRStatus s1 pr.repoFullName pr.number .draft

/-- The fields of the webhook `review` payload that `handle_review_event`
reads. -/
structure ReviewPayload where
  userLogin : String
  state : String
  htmlUrl : String
deriving DecidableEq, Repr

/-- A decoded `pull_request_review` event: `data.get('pull_request')` and
`data.get('review')` may each be absent. -/
structure ReviewEventData where
  pullRequest : Option PRPayload
  review : Option ReviewPayload
deriving DecidableEq, Repr

/-- Completion stamping: `request.completed_at = utcnow(); request.review_url
= review_web_url`. -/
def markCompleted (now : Nat) (url : String) (r : ReviewRow) : ReviewRow :=
  { r with completedAt := some now, reviewUrl := some url }

/-- The loop over `requests_completed` in `handle_review_event`: every
outstanding row of the (repo, PR, reviewer) tuple is stamped complete. -/
def completeAllStore (s : Store) (repo : String) (num : Nat) (reviewer : String)
    (now : Nat) (url : String) : Store :=
  { s with reviews := s.reviews.map (fun r =>
      if matchPending repo num reviewer r then markCompleted now url r else r) }

/-- `GitHubBot.handle_review_event`.  The source dereferences
`pr['base']['repo']['full_name']` and `review['user']['login']` before its
`if not review or not pr` guard, so a missing payload raises (the error
case) rather than reaching the guard.  In the `"commented"` branch the URL
split is asserted to produce exactly two parts and the id parsed with
`int(...)`; the classification result itself only logs and never changes the
store. -/
def handleReviewEvent (s : Store) (d : ReviewEventData) (now : Nat) : Except Unit Store :=
  match d.pullRequest, d.review with
  | some pr, some rv =>
    match minPrId pr.repoFullName with
    | none => .error ()
    | some m =>
      if pr.number < m then .ok s
      else if rv.userLogin = pr.authorLogin then .ok s
      else
        let classify : Except Unit Unit :=
          if rv.state = "commented" then
            let parts := rv.htmlUrl.splitOn (toString pr.number ++ "#pullrequestreview-")
            if parts.length = 2 then
              match (parts.getD 1 "").toNat? with
              | some _ => .ok ()
              | none => .error ()
            else .error ()
          else .ok ()
        classify.bind fun _ =>
          match findPR s pr.repoFullName pr.number with
          | none => .ok s
          | some _ =>
            let matched := outstandingCount s pr.repoFullName pr.number rv.userLogin
            let s1 := completeAllStore s pr.repoFullName pr.number rv.userLogin now rv.htmlUrl
            if matched = 0 then
              .ok (insertReview s1
                { rowId := s1.nextReviewId, repoName := pr.repoFullName, prNumber := pr.number,
                  reviewer := rv.userLogin, requestedAt := now, completedAt := some now,
                  reviewUrl := some rv.htmlUrl })
            else
              .ok (setPRStatus s1 pr.repoFullName pr.number .reviewed)
  | _, _ => .error ()

/-- The stored status of a PR, as a query on the store. -/
def prStatus (s : Store) (repo : String) (num : Nat) : Option PRStatus :=
  (findPR s repo num).map (fun p => p.status)

/-! ### Duration calculator (`models.py`, `Review.review_duration`)

Local instants are minutes since a Monday 00:00 in the reviewer's zone; the
workday window 09:00-17:00 is `[540, 1020]` minutes into the day. -/

/-- `datetime.weekday()` of a local instant (Monday = 0). -/
def weekdayOf (t : Nat) : Nat := t / 1440 % 7

/-- Time of day, in minutes. -/
def todOf (t : Nat) : Nat := t % 1440

/-- The `while start_localized < end_localized` loop of `review_duration`,
with an explicit fuel bound (every iteration strictly advances the cursor by
at least one minute, so any fuel of at least `e - s + 1` reproduces the
loop's result).  Branches, in source order: outside the window (weekend,
before 09:00, or after 17:00) advance - a day forward if it is a weekend day
or past 17:00 - and snap to 09:00; inside the window on the final day add
the overlap and stop; otherwise add the rest of the workday and move the
cursor to 18:00 (same minute-within-hour, as `replace(hour=18)` keeps the
minutes) so the next iteration jumps to the next day. -/
def durationLoop : Nat → Nat → Nat → Nat
  | 0, _, _ => 0
  | fuel + 1, s, e =>
    if s < e then
      if weekdayOf s > 4 || todOf s < 540 || todOf s > 1020 then
        let s1 := if weekdayOf s > 4 || todOf s > 1020 then s + 1440 else s
        durationLoop fuel (s1 / 1440 * 1440 + 540) e
      else
        let workdayTime := 1020 - todOf s
        if s / 1440 = e / 1440 then
          min workdayTime (todOf e - todOf s)
        else
          workdayTime + durationLoop fuel (s / 1440 * 1440 + 1080 + todOf s % 60) e
    else 0

/-- `Review.review_duration` with both endpoints already in the reviewer's
local zone, returning elapsed business time in minutes. -/
def reviewDuration (s e : Nat) : Nat := durationLoop (e - s + 1) s e

/-! ### Reviewer selection (`GitHubBot._auto_assign_next_reviewer`) -/

/-- The hard-coded collaborator list returned by
`GitHubBot.get_repo_collaborators`. -/
def repoCollaborators : List String :=
  ["arik-so", "jkczyz", "TheBlueMatt", "valentinewallace", "wpaulino", "joostjager"]

/-- Stable insertion of one element into a list sorted ascending by count
(equal counts keep their original relative order, as Python's stable
`sorted` does). -/
def insertByCount (counts : String → Nat) (x : String) : List String → List String
  | [] => [x]
  | y :: ys => if counts y < counts x then y :: insertByCount counts x ys else x :: y :: ys

/-- `sorted(collaborators, key=lambda x: reviewer_counts.get(x, 0))`: the
unique stable ascending sort by count. -/
def sortByCount (counts : String → Nat) (l : List String) : List String :=
  l.foldr (insertByCount counts) []

/-- The `current_reviewers` list built in `_auto_assign_next_reviewer`
(payload `requested_reviewers` plus the reviewers of the PR's review rows). -/
def currentReviewersOf (requestedReviewers reviewRowReviewers : List String) : List String :=
  requestedReviewers ++ reviewRowReviewers

/-- The candidate set `possible_reviewers` from which
`_auto_assign_next_reviewer` picks uniformly at random: collaborators minus
the PR author, sorted by recent-review count, restricted to the minimum
count.  The `current_reviewers` list is computed - and then never used to
narrow the pool - exactly as in the source. -/
def autoAssignCandidates (counts : String → Nat) (prAuthor : String)
    (requestedReviewers reviewRowReviewers : List String) : List String :=
  let collaborators := repoCollaborators.filter (fun c => c != prAuthor)
  let _currentReviewers := currentReviewersOf requestedReviewers reviewRowReviewers
  let sortedReviewers := sortByCount counts collaborators
  match sortedReviewers with
  | [] => []
  | top :: _ =>
    let minReviews := counts top
    sortedReviewers.filter (fun r => counts r == minReviews)

/-! ### Reminder gate (`GitHubBot.check_and_send_reminders`) -/

/-- The day/hour gate guarding the reminder sweep:
`now.weekday() < 4 or (now.weekday() == 5 and now.hour < 17)`. -/
def shouldSendReminders (weekday hour : Nat) : Bool :=
  weekday < 4 || (weekday == 5 && hour < 17)

/-! ### Interleaved `_add_pending_review` invocations

`_add_pending_review` issues two separately visible store accesses: the
outstanding-row query and the insert (the `review` table carries no
uniqueness constraint over (repo, PR, reviewer, completed-null), so nothing
at the store layer serialises the two).  A phase records how far one
in-flight invocation has progressed. -/

/-- Progress of one in-flight `_add_pending_review` call. -/
inductive AddPendingPhase
  | beforeCheck
  | beforeInsert (foundPending : Bool)
  | finishedPhase
deriving DecidableEq, Repr

/-- One atomic step of an in-flight `_add_pending_review` call: first the PR
lookup, status write and outstanding-row query; then, separately, the
conditional insert. -/
def addPendingStep (repo : String) (num : Nat) (reviewer : String) (now : Nat)
    (st : Store) (ph : AddPendingPhase) : Store × AddPendingPhase :=
  match ph with
  | .beforeCheck =>
    match findPR st repo num with
    | none => (st, .finishedPhase)
    | some _ =>
      let st1 := setPRStatus st repo num .pendingReview
      (st1, .beforeInsert (findPendingReview st1 repo num reviewer).isSome)
  | .beforeInsert found =>
    if found then (st, .finishedPhase)
    else (insertReview st (newPendingRow st repo num reviewer now), .finishedPhase)
  | .finishedPhase => (st, .finishedPhase)

/-- Two concurrent `_add_pending_review` invocations against one store. -/
structure TwoProcState where
  store : Store
  proc1 : AddPendingPhase
  proc2 : AddPendingPhase
deriving DecidableEq, Repr

/-- Run a schedule over the two invocations; each entry picks which process
takes its next atomic step. -/
def stepSchedule (repo : String) (num : Nat) (reviewer : String) (now : Nat) :
    List Bool → TwoProcState → TwoProcState
  | [], cs => cs
  | pick :: rest, cs =>
    if pick then
      let sp := addPendingStep repo num reviewer now cs.store cs.proc1
      stepSchedule repo num reviewer now rest { cs with store := sp.1, proc1 := sp.2 }
    else
      let sp := addPendingStep repo num reviewer now cs.store cs.proc2
      stepSchedule repo num reviewer now rest { cs with store := sp.1, proc2 := sp.2 }

/-! ### Side-effect ordering traces

Each handler is abstracted to the sequence of store mutations, transaction
commits and external HTTP calls it issues, in source order. -/

/-- One observable operation of a handler. -/
inductive StoreOp
  | mutateOp
  | commitOp
  | externalOp
deriving DecidableEq, Repr

/-- Walk a trace tracking whether an uncommitted mutation is pending; an
external call is admissible only when nothing uncommitted is pending. -/
def effectsAfterCommitOk : List StoreOp → Bool → Bool
  | [], _ => true
  | StoreOp.mutateOp :: rest, _ => effectsAfterCommitOk rest true
  | StoreOp.commitOp :: rest, _ => effectsAfterCommitOk rest false
  | StoreOp.externalOp :: rest, pending => !pending && effectsAfterCommitOk rest pending

/-- A trace satisfies the "side effects only after commit" discipline. -/
def effectsOnlyAfterCommit (tr : List StoreOp) : Bool :=
  effectsAfterCommitOk tr false

/-- Trace of `_handle_review_requested` for a tracked PR above the floor:
status write; if an outstanding row already exists, commit and stop;
otherwise comment update (external), then `_add_pending_review` (status
write, row insert, commit). -/
def reviewRequestedTrace (pendingExists : Bool) : List StoreOp :=
  if pendingExists then [.mutateOp, .commitOp]
  else [.mutateOp, .externalOp, .mutateOp, .mutateOp, .commitOp]

/-- Trace of `_add_pending_review` alone for a tracked PR. -/
def addPendingTrace (pendingExists : Bool) : List StoreOp :=
  if pendingExists then [.mutateOp, .commitOp] else [.mutateOp, .mutateOp, .commitOp]

/-- Trace of `_handle_new_pr`: insert the PR row, commit (the source comments
this commit as guarding against commenting on duplicates), post the initial
comment, record its id if creation succeeded, commit, then replay the
review-requested path per requested reviewer. -/
def newPrTrace (commentCreated : Bool) (reviewerPending : List Bool) : List StoreOp :=
  [.mutateOp, .commitOp, .externalOp] ++ (if commentCreated then [.mutateOp] else [])
    ++ [.commitOp] ++ (reviewerPending.map reviewRequestedTrace).flatten

/-- Trace of `_handle_ready_for_review` for a tracked PR: if the stored
comment id is truthy, status write, commit, comment update; then
`_add_pending_review` per requested reviewer. -/
def readyForReviewTrace (hasCommentId : Bool) (reviewerPending : List Bool) : List StoreOp :=
  (if hasCommentId then [.mutateOp, .commitOp, .externalOp] else [])
    ++ (reviewerPending.map addPendingTrace).flatten

/-- Trace of `_handle_converted_to_draft` for a tracked PR: one delete per
review row of the PR, then (if the comment id is truthy) the comment update,
then the status write and the commit. -/
def convertedToDraftTrace (hasCommentId : Bool) (numReviewRows : Nat) : List StoreOp :=
  List.replicate numReviewRows .mutateOp ++ (if hasCommentId then [.externalOp] else [])
    ++ [.mutateOp, .commitOp]

/-! ### Concrete instances used by the claim theorems -/

/-- A tracked example PR row (above the repository's `MIN_PR_ID` floor). -/
def examplePR : PRRecord :=
  { prNumber := 3700, repoName := "lightningdevkit/rust-lightning", prTitle := "example",
    status := PRStatus.pendingReviewerChoice, createdAt := 0, lastReminderSent := none,
    reminderCount := 0, initialCommentId := some 11 }

/-- A store tracking `examplePR` with no review rows. -/
def exampleStore : Store := { prs := [examplePR], reviews := [], nextReviewId := 1 }

/-- A store tracking nothing at all. -/
def emptyStore : Store := { prs := [], reviews := [], nextReviewId := 1 }

/-- The webhook `pull_request` payload for `examplePR`. -/
def examplePayload : PRPayload :=
  { number := 3700, repoFullName := "lightningdevkit/rust-lightning", title := "example",
    isDraft := false, authorLogin := "TheBlueMatt", requestedReviewers := [] }

/-- A submitted (non-comment) review payload from a non-author reviewer. -/
def approvedReview : ReviewPayload :=
  { userLogin := "jkczyz", state := "approved",
    htmlUrl := "https://github.com/lightningdevkit/rust-lightning/pull/3700#pullrequestreview-9" }

/-- `exampleStore` with the PR already awaiting a review. -/
def pendingReviewStore : Store :=
  { prs := [{ examplePR with status := PRStatus.pendingReview }], reviews := [], nextReviewId := 1 }

/-- An outstanding (completion-null) review row for the example PR. -/
def outstandingRow : ReviewRow :=
  { rowId := 1, repoName := "lightningdevkit/rust-lightning", prNumber := 3700,
    reviewer := "jkczyz", requestedAt := 10, completedAt := none, reviewUrl := none }

/-- `pendingReviewStore` with one outstanding review row for `jkczyz`. -/
def oneOutstandingStore : Store :=
  { prs := [{ examplePR with status := PRStatus.pendingReview }], reviews := [outstandingRow],
    nextReviewId := 2 }

/-- A review row already completed (stamped with time and URL). -/
def completedRow : ReviewRow :=
  { rowId := 1, repoName := "lightningdevkit/rust-lightning", prNumber := 3700,
    reviewer := "jkczyz", requestedAt := 10, completedAt := some 40,
    reviewUrl := some "https://example.com/review" }

/-- A store whose example PR was already reviewed, holding one completed row. -/
def reviewedStore : Store :=
  { prs := [{ examplePR with status := PRStatus.reviewed }], reviews := [completedRow],
    nextReviewId := 2 }

/-- The example PR in draft with no stored comment id. -/
def draftNoCommentStore : Store :=
  { prs := [{ examplePR with status := PRStatus.draft, initialCommentId := none }],
    reviews := [], nextReviewId := 1 }

/-- The final state of running two interleaved `_add_pending_review`
invocations for the same (repo, PR, reviewer) tuple against `exampleStore`,
both performing their outstanding-row query before either inserts. -/
def raceResult : TwoProcState :=
  stepSchedule "lightningdevkit/rust-lightning" 3700 "jkczyz" 0 [true, false, true, false]
    { store := exampleStore, proc1 := .beforeCheck, proc2 := .beforeCheck }

deriving instance DecidableEq for Except

/-! ### Lemmas about the store operations -/

theorem matchPR_update_status (repo : String) (num : Nat) (st : PRStatus) (p : PRRecord) :
    matchPR repo num { p with status := st } = matchPR repo num p := rfl

theorem update_status_self (p : PRRecord) (st : PRStatus) (h : p.status = st) :
    { p with status := st } = p := by
  cases p; cases h; rfl

theorem find?_map_update (repo : String) (num : Nat) (st : PRStatus) (l : List PRRecord) :
    (l.map (fun p => if matchPR repo num p then { p with status := st } else p)).find? (matchPR repo num)
      = (l.find? (matchPR repo num)).map (fun p => { p with status := st }) := by
  induction l with
  | nil => rfl
  | cons p tl ih =>
    cases h : matchPR repo num p with
    | true => simp [List.find?_cons, h, matchPR_update_status]
    | false => simpa [List.find?_cons, h, matchPR_update_status] using ih

theorem findPR_setPRStatus (s : Store) (repo : String) (num : Nat) (st : PRStatus) :
    findPR (setPRStatus s repo num st) repo num
      = (findPR s repo num).map (fun p => { p with status := st }) := by
  unfold findPR setPRStatus
  exact find?_map_update repo num st s.prs

theorem reviews_setPRStatus (s : Store) (repo : String) (num : Nat) (st : PRStatus) :
    (setPRStatus s repo num st).reviews = s.reviews := rfl

theorem findPendingReview_setPRStatus (s : Store) (repo repo' : String) (num num' : Nat)
    (st : PRStatus) (reviewer : String) :
    findPendingReview (setPRStatus s repo num st) repo' num' reviewer
      = findPendingReview s repo' num' reviewer := rfl

theorem outstandingCount_setPRStatus (s : Store) (repo repo' : String) (num num' : Nat)
    (st : PRStatus) (reviewer : String) :
    outstandingCount (setPRStatus s repo num st) repo' num' reviewer
      = outstandingCount s repo' num' reviewer := rfl

theorem findPR_insertReview (s : Store) (r : ReviewRow) (repo : String) (num : Nat) :
    findPR (insertReview s r) repo num = findPR s repo num := rfl

theorem map_update_noop (repo : String) (num : Nat) (st : PRStatus) (l : List PRRecord)
    (h : ∀ p ∈ l, matchPR repo num p = true → p.status = st) :
    l.map (fun p => if matchPR repo num p then { p with status := st } else p) = l := by
  induction l with
  | nil => rfl
  | cons p tl ih =>
    have hd : (if matchPR repo num p then { p with status := st } else p) = p := by
      cases hm : matchPR repo num p with
      | true => simpa using update_status_self p st (h p (by simp) hm)
      | false => simp
    simp only [List.map_cons, hd]
    rw [ih (fun q hq hm => h q (by simp [hq]) hm)]

theorem setPRStatus_noop (s : Store) (repo : String) (num : Nat) (st : PRStatus)
    (h : ∀ p ∈ s.prs, matchPR repo num p = true → p.status = st) :
    setPRStatus s repo num st = s := by
  unfold setPRStatus
  rw [map_update_noop repo num st s.prs h]

theorem status_mem_setPRStatus (s : Store) (repo : String) (num : Nat) (st : PRStatus)
    (p : PRRecord) (hp : p ∈ (setPRStatus s repo num st).prs) (hm : matchPR repo num p = true) :
    p.status = st := by
  unfold setPRStatus at hp
  simp only [List.mem_map] at hp
  obtain ⟨q, hq, hfq⟩ := hp
  by_cases h : matchPR repo num q = true
  · rw [if_pos h] at hfq
    subst hfq
    rfl
  · rw [if_neg h] at hfq
    subst hfq
    exact absurd hm h

theorem count_eq_zero_iff_find_none (s : Store) (repo : String) (num : Nat) (reviewer : String) :
    outstandingCount s repo num reviewer = 0 ↔ findPendingReview s repo num reviewer = none := by
  unfold outstandingCount findPendingReview
  rw [List.length_eq_zero, List.filter_eq_nil_iff, List.find?_eq_none]

theorem count_pos_of_find_some (s : Store) (repo : String) (num : Nat) (reviewer : String)
    (r0 : ReviewRow) (h : findPendingReview s repo num reviewer = some r0) :
    0 < outstandingCount s repo num reviewer := by
  rcases Nat.eq_zero_or_pos (outstandingCount s repo num reviewer) with h0 | h0
  · rw [(count_eq_zero_iff_find_none s repo num reviewer).mp h0] at h
    exact absurd h (by simp)
  · exact h0

theorem count_insert_match (s : Store) (repo : String) (num : Nat) (reviewer : String)
    (row : ReviewRow) (h : matchPending repo num reviewer row = true) :
    outstandingCount (insertReview s row) repo num reviewer
      = outstandingCount s repo num reviewer + 1 := by
  unfold outstandingCount insertReview
  simp [List.filter_append, h]

theorem matchPending_newPendingRow (s : Store) (repo : String) (num : Nat) (reviewer : String)
    (now : Nat) : matchPending repo num reviewer (newPendingRow s repo num reviewer now) = true := by
  simp [matchPending, newPendingRow]

end LdkBot

namespace LdkBot

theorem matching_status_pendingReview (s : Store) (repo : String) (num : Nat) :
    ∀ p ∈ (setPRStatus s repo num PRStatus.pendingReview).prs, matchPR repo num p = true →
      p.status = PRStatus.pendingReview :=
  fun p hp hm => status_mem_setPRStatus s repo num _ p hp hm

/-- C2: processing the same `review_requested` event twice in sequence for a
tracked PR (above the floor, with a stored comment id, and with at most one
outstanding row beforehand) leaves exactly one outstanding review row for
that reviewer, and the second processing returns the very same store: it is
a no-op on the review table. -/
theorem reviewRequested_replay_idempotent
    (s : Store) (pr : PRPayload) (reviewer : String) (now : Nat) (rec : PRRecord) (m : Nat)
    (h1 : minPrId pr.repoFullName = some m)
    (h2 : ¬ pr.number < m)
    (h3 : findPR s pr.repoFullName pr.number = some rec)
    (h4 : rec.initialCommentId.isSome = true)
    (h5 : outstandingCount s pr.repoFullName pr.number reviewer ≤ 1) :
    ∃ s1, handleReviewRequested s pr reviewer now = .ok s1 ∧
      handleReviewRequested s1 pr reviewer now = .ok s1 ∧
      outstandingCount s1 pr.repoFullName pr.number reviewer = 1 := by
  set sU := setPRStatus s pr.repoFullName pr.number .pendingReview with hsU
  have hfindU : findPR sU pr.repoFullName pr.number
      = some { rec with status := .pendingReview } := by
    rw [hsU, findPR_setPRStatus, h3]; rfl
  have hmatching : ∀ p ∈ sU.prs, matchPR pr.repoFullName pr.number p = true →
      p.status = PRStatus.pendingReview :=
    fun p hp hm => status_mem_setPRStatus s pr.repoFullName pr.number _ p hp hm
  have hnoopU : setPRStatus sU pr.repoFullName pr.number .pendingReview = sU :=
    setPRStatus_noop sU pr.repoFullName pr.number _ hmatching
  cases hfp : findPendingReview s pr.repoFullName pr.number reviewer with
  | some r0 =>
    -- an outstanding row already exists: both runs are no-ops on the review table
    have hcnt : outstandingCount s pr.repoFullName pr.number reviewer = 1 := by
      have := count_pos_of_find_some s pr.repoFullName pr.number reviewer r0 hfp
      omega
    have hrun1 : handleReviewRequested s pr reviewer now = .ok sU := by
      unfold handleReviewRequested
      rw [h1]
      simp only [if_neg h2, h3, ← hsU]
      rw [show findPendingReview sU pr.repoFullName pr.number reviewer = some r0 from hfp]
    have hrun2 : handleReviewRequested sU pr reviewer now = .ok sU := by
      unfold handleReviewRequested
      rw [h1]
      simp only [if_neg h2, hfindU, hnoopU]
      rw [show findPendingReview sU pr.repoFullName pr.number reviewer = some r0 from hfp]
    exact ⟨sU, hrun1, hrun2, by
      rw [hsU, outstandingCount_setPRStatus]; exact hcnt⟩
  | none =>
    -- no outstanding row: the first run inserts one, the second is a no-op
    have hcnt0 : outstandingCount s pr.repoFullName pr.number reviewer = 0 :=
      (count_eq_zero_iff_find_none s pr.repoFullName pr.number reviewer).mpr hfp
    set row := newPendingRow sU pr.repoFullName pr.number reviewer now with hrow
    set s1 := insertReview sU row with hs1
    have hadd : addPendingReview sU pr.repoFullName pr.number reviewer now = .ok s1 := by
      unfold addPendingReview
      simp only [hfindU, hnoopU]
      rw [show findPendingReview sU pr.repoFullName pr.number reviewer = none from hfp]
    have hrun1 : handleReviewRequested s pr reviewer now = .ok s1 := by
      unfold handleReviewRequested
      rw [h1]
      simp only [if_neg h2, h3, ← hsU]
      rw [show findPendingReview sU pr.repoFullName pr.number reviewer = none from hfp]
      simp only [h4, if_true, hadd]
    have hcnt1 : outstandingCount s1 pr.repoFullName pr.number reviewer = 1 := by
      rw [hs1, count_insert_match sU pr.repoFullName pr.number reviewer row
        (by rw [hrow]; exact matchPending_newPendingRow sU pr.repoFullName pr.number reviewer now)]
      rw [hsU, outstandingCount_setPRStatus, hcnt0]
    have hfind1 : findPR s1 pr.repoFullName pr.number
        = some { rec with status := .pendingReview } := by
      rw [hs1, findPR_insertReview, hfindU]
    have hnoop1 : setPRStatus s1 pr.repoFullName pr.number .pendingReview = s1 := by
      apply setPRStatus_noop
      intro p hp hm
      exact hmatching p hp hm
    have hfp1 : ∃ r1, findPendingReview s1 pr.repoFullName pr.number reviewer = some r1 := by
      cases hx : findPendingReview s1 pr.repoFullName pr.number reviewer with
      | none =>
        have := (count_eq_zero_iff_find_none s1 pr.repoFullName pr.number reviewer).mpr hx
        omega
      | some r1 => exact ⟨r1, rfl⟩
    obtain ⟨r1, hr1⟩ := hfp1
    have hrun2 : handleReviewRequested s1 pr reviewer now = .ok s1 := by
      unfold handleReviewRequested
      rw [h1]
      simp only [if_neg h2, hfind1, hnoop1]
      rw [hr1]
    exact ⟨s1, hrun1, hrun2, hcnt1⟩

theorem filter_completeAll_nil (repo : String) (num : Nat) (rv : String) (now : Nat)
    (url : String) (l : List ReviewRow) :
    (l.map (fun r => if matchPending repo num rv r then markCompleted now url r else r)).filter
      (matchPending repo num rv) = [] := by
  rw [List.filter_eq_nil_iff]
  intro a ha
  rw [List.mem_map] at ha
  obtain ⟨r, hr, hfr⟩ := ha
  by_cases h : matchPending repo num rv r = true
  · rw [if_pos h] at hfr
    subst hfr
    simp [matchPending, markCompleted]
  · rw [if_neg h] at hfr
    subst hfr
    exact h

theorem marked_mem_completeAll (repo : String) (num : Nat) (rv : String) (now : Nat)
    (url : String) (l : List ReviewRow) (r : ReviewRow) (hr : r ∈ l)
    (hm : matchPending repo num rv r = true) :
    markCompleted now url r ∈
      l.map (fun r => if matchPending repo num rv r then markCompleted now url r else r) := by
  have h := List.mem_map_of_mem
    (fun r => if matchPending repo num rv r then markCompleted now url r else r) hr
  simpa [hm] using h

/-- C3 (amended): a substantive non-self review on a tracked PR sets the
status to `REVIEWED` and stamps every matching outstanding review row
complete, with no row inserted - provided at least one outstanding row for
that reviewer existed beforehand (with none, the source inserts a completed
row and returns before the status write; see the counterexample). -/
theorem reviewEvent_marks_outstanding_and_sets_reviewed
    (s : Store) (pr : PRPayload) (rv : ReviewPayload) (now m : Nat) (rec : PRRecord)
    (h1 : minPrId pr.repoFullName = some m)
    (h2 : ¬ pr.number < m)
    (h3 : ¬ rv.userLogin = pr.authorLogin)
    (h4 : ¬ rv.state = "commented")
    (h5 : findPR s pr.repoFullName pr.number = some rec)
    (h6 : 0 < outstandingCount s pr.repoFullName pr.number rv.userLogin) :
    ∃ s2, handleReviewEvent s ⟨some pr, some rv⟩ now = .ok s2 ∧
      prStatus s2 pr.repoFullName pr.number = some .reviewed ∧
      outstandingCount s2 pr.repoFullName pr.number rv.userLogin = 0 ∧
      s2.reviews.length = s.reviews.length ∧
      (∀ r ∈ s.reviews, matchPending pr.repoFullName pr.number rv.userLogin r = true →
        markCompleted now rv.htmlUrl r ∈ s2.reviews) := by
  set s1 := completeAllStore s pr.repoFullName pr.number rv.userLogin now rv.htmlUrl with hs1
  set s2 := setPRStatus s1 pr.repoFullName pr.number .reviewed with hs2
  have hrun : handleReviewEvent s ⟨some pr, some rv⟩ now = .ok s2 := by
    unfold handleReviewEvent
    simp only [h1]
    simp only [if_neg h2, if_neg h3, if_neg h4, h5, Except.bind]
    rw [if_neg (by omega : ¬ outstandingCount s pr.repoFullName pr.number rv.userLogin = 0)]
  have hf1 : findPR s1 pr.repoFullName pr.number = some rec := h5
  refine ⟨s2, hrun, ?_, ?_, ?_, ?_⟩
  · unfold prStatus
    rw [hs2, findPR_setPRStatus, hf1]
    rfl
  · rw [hs2, outstandingCount_setPRStatus]
    show ((completeAllStore s pr.repoFullName pr.number rv.userLogin now
      rv.htmlUrl).reviews.filter (matchPending pr.repoFullName pr.number rv.userLogin)).length = 0
    rw [show (completeAllStore s pr.repoFullName pr.number rv.userLogin now rv.htmlUrl).reviews
        = s.reviews.map (fun r =>
          if matchPending pr.repoFullName pr.number rv.userLogin r then
            markCompleted now rv.htmlUrl r else r) from rfl]
    rw [filter_completeAll_nil]
    rfl
  · rw [show s2.reviews = s.reviews.map (fun r =>
        if matchPending pr.repoFullName pr.number rv.userLogin r then
          markCompleted now rv.htmlUrl r else r) from rfl]
    exact List.length_map _ _
  · intro r hr hm
    rw [show s2.reviews = s.reviews.map (fun r =>
        if matchPending pr.repoFullName pr.number rv.userLogin r then
          markCompleted now rv.htmlUrl r else r) from rfl]
    exact marked_mem_completeAll pr.repoFullName pr.number rv.userLogin now rv.htmlUrl
      s.reviews r hr hm

/-- C7 (amended): converting a tracked PR to draft sets its status to
`DRAFT` and deletes every review row of that PR - outstanding and completed
alike - while leaving rows of other PRs in place. -/
theorem convertedToDraft_deletes_all_rows (s : Store) (pr : PRPayload) (rec : PRRecord)
    (h : findPR s pr.repoFullName pr.number = some rec) :
    prStatus (handleConvertedToDraft s pr) pr.repoFullName pr.number = some .draft ∧
    (∀ r ∈ s.reviews, r.repoName = pr.repoFullName → r.prNumber = pr.number →
      r ∉ (handleConvertedToDraft s pr).reviews) ∧
    (∀ r ∈ s.reviews, ¬ (r.repoName = pr.repoFullName ∧ r.prNumber = pr.number) →
      r ∈ (handleConvertedToDraft s pr).reviews) := by
  set sF := deleteReviewsOfPR s pr.repoFullName pr.number with hsF
  have hrun : handleConvertedToDraft s pr
      = setPRStatus sF pr.repoFullName pr.number .draft := by
    unfold handleConvertedToDraft
    rw [h]
  have hfF : findPR sF pr.repoFullName pr.number = some rec := h
  refine ⟨?_, ?_, ?_⟩
  · unfold prStatus
    rw [hrun, findPR_setPRStatus, hfF]
    rfl
  · intro r hr hrepo hnum hmem
    rw [hrun] at hmem
    have hmem' : r ∈ s.reviews.filter (fun r =>
        !(r.prNumber == pr.number && r.repoName == pr.repoFullName)) := hmem
    rw [List.mem_filter] at hmem'
    simp [hrepo, hnum] at hmem'
  · intro r hr hnot
    rw [hrun]
    show r ∈ s.reviews.filter (fun r =>
      !(r.prNumber == pr.number && r.repoName == pr.repoFullName))
    rw [List.mem_filter]
    refine ⟨hr, ?_⟩
    simp only [Bool.not_eq_true', Bool.and_eq_false_iff, beq_eq_false_iff_ne, ne_eq]
    tauto

/-- C10 (amended): on a ready-for-review event for a tracked PR whose
`initial_comment_id` is null, the `PENDING_REVIEWER_CHOICE` transition and
comment update are skipped (with no requested reviewers the store is
untouched), but each requested reviewer still goes through
`_add_pending_review`, which itself sets the status to `PENDING_REVIEW` and
ensures an outstanding row. -/
theorem readyForReview_nullComment_behavior
    (s : Store) (pr : PRPayload) (rec : PRRecord) (rv : String) (now : Nat)
    (h1 : findPR s pr.repoFullName pr.number = some rec)
    (h2 : rec.initialCommentId = none) :
    handleReadyForReview s { pr with requestedReviewers := [] } now = .ok s ∧
    ∃ s1, handleReadyForReview s { pr with requestedReviewers := [rv] } now = .ok s1 ∧
      prStatus s1 pr.repoFullName pr.number = some .pendingReview ∧
      0 < outstandingCount s1 pr.repoFullName pr.number rv := by
  have hguard : ¬ (truthyCommentId rec.initialCommentId = true) := by
    rw [h2]
    exact Bool.false_ne_true
  constructor
  · unfold handleReadyForReview
    simp only [h1]
    rw [if_neg hguard]
    rfl
  · have hfind : findPR s pr.repoFullName pr.number = some rec := h1
    set sU := setPRStatus s pr.repoFullName pr.number .pendingReview with hsU
    have hfindU : findPR sU pr.repoFullName pr.number
        = some { rec with status := .pendingReview } := by
      rw [hsU, findPR_setPRStatus, h1]
      rfl
    cases hfp : findPendingReview s pr.repoFullName pr.number rv with
    | some r0 =>
      refine ⟨sU, ?_, ?_, ?_⟩
      · unfold handleReadyForReview
        simp only [h1]
        rw [if_neg hguard]
        show (addPendingReview s pr.repoFullName pr.number rv now).bind _ = _
        unfold addPendingReview
        simp only [h1, ← hsU]
        rw [show findPendingReview sU pr.repoFullName pr.number rv = some r0 from hfp]
        rfl
      · unfold prStatus
        rw [hfindU]
        rfl
      · rw [hsU, outstandingCount_setPRStatus]
        exact count_pos_of_find_some s pr.repoFullName pr.number rv r0 hfp
    | none =>
      refine ⟨insertReview sU (newPendingRow sU pr.repoFullName pr.number rv now), ?_, ?_, ?_⟩
      · unfold handleReadyForReview
        simp only [h1]
        rw [if_neg hguard]
        show (addPendingReview s pr.repoFullName pr.number rv now).bind _ = _
        unfold addPendingReview
        simp only [h1, ← hsU]
        rw [show findPendingReview sU pr.repoFullName pr.number rv = none from hfp]
        rfl
      · unfold prStatus
        rw [findPR_insertReview, hfindU]
        rfl
      · rw [count_insert_match sU pr.repoFullName pr.number rv _
          (matchPending_newPendingRow sU pr.repoFullName pr.number rv now)]
        omega



/-! ### Claim theorems -/

/-- C1: the claim asserts that at most one completion-null review row per
(repo, PR, reviewer) tuple exists at every reachable state, even under
concurrent interleaved insert attempts.  The check-then-insert in
`_add_pending_review` has no store-level uniqueness guard: a schedule in
which both invocations run their outstanding-row query before either
inserts ends with two outstanding rows for the same tuple. -/
theorem addPendingReview_race_duplicates :
    outstandingCount raceResult.store "lightningdevkit/rust-lightning" 3700 "jkczyz" = 2 ∧
    raceResult.proc1 = AddPendingPhase.finishedPhase ∧
    raceResult.proc2 = AddPendingPhase.finishedPhase := by decide

/-- C4: the claim asserts the second-reviewer candidate pool excludes every
reviewer already assigned or reviewing.  In the source the
`current_reviewers` list is computed but never used to narrow the pool, so
an already-requested reviewer remains among the selectable candidates. -/
theorem secondReviewer_pool_includes_current_reviewer :
    "jkczyz" ∈ currentReviewersOf ["jkczyz"] [] ∧
    "jkczyz" ∈ autoAssignCandidates (fun _ => 0) "TheBlueMatt" ["jkczyz"] [] := by decide

/-- C5 counterexample: for a request at Friday 10:00 and completion at
Monday 10:00 in the reviewer's zone, the duration calculator does not
return 7 hours (420 minutes) of business time. -/
theorem reviewDuration_friday_monday_ne_seven_hours :
    reviewDuration (4 * 1440 + 600) (7 * 1440 + 600) ≠ 7 * 60 := by decide

/-- C5 (amended): for a request at Friday 10:00 and completion at Monday
10:00 in the reviewer's zone, the duration calculator returns exactly
8 hours (480 minutes): Friday 10:00-17:00 plus Monday 09:00-10:00. -/
theorem reviewDuration_friday_monday_eq_eight_hours :
    reviewDuration (4 * 1440 + 600) (7 * 1440 + 600) = 8 * 60 := by decide

/-- C6: the claim asserts reminders are swept on every weekday Monday
through Friday and on Saturday mornings.  The gate
`now.weekday() < 4 or (now.weekday() == 5 and now.hour < 17)` skips Friday
(weekday 4) entirely while admitting Saturday up to 17:00. -/
theorem reminders_skipped_on_friday :
    shouldSendReminders 4 10 = false ∧ shouldSendReminders 5 16 = true := by decide

/-- C8 counterexample: the converted-to-draft handler with one review row
issues its external comment update while the uncommitted row deletion is
pending, violating the commit-before-side-effects discipline the claim
asserts for every handler. -/
theorem convertedToDraft_external_before_commit :
    effectsOnlyAfterCommit (convertedToDraftTrace true 1) = false := by decide

/-- C8 (amended): the new-PR and ready-for-review paths issue external
comment calls only after the local commit, but the converted-to-draft path
(with a row to delete) and the review-requested insert path issue the
comment update while uncommitted mutations are pending. -/
theorem effect_ordering_per_handler :
    effectsOnlyAfterCommit (newPrTrace true []) = true ∧
    effectsOnlyAfterCommit (readyForReviewTrace true []) = true ∧
    effectsOnlyAfterCommit (convertedToDraftTrace true 1) = false ∧
    effectsOnlyAfterCommit (reviewRequestedTrace false) = false := by decide

/-- C9: the claim asserts the processor never raises on well-authenticated
events.  A review event with a missing `pull_request` payload raises
(dereference before the guard), and a ready-for-review event for an
untracked PR with a requested reviewer reaches the failing
`assert pr_record is not None` in `_add_pending_review`. -/
theorem processor_raises_on_missing_payload_and_untracked_pr :
    handleReviewEvent exampleStore { pullRequest := none, review := some approvedReview } 0
      = .error () ∧
    handleReadyForReview emptyStore { examplePayload with requestedReviewers := ["jkczyz"] } 0
      = .error () := by decide

/-- C3 counterexample: a substantive non-self review on a tracked,
non-terminal PR with no outstanding review row for the reviewer leaves the
PR status unchanged (`PENDING_REVIEW`), because `handle_review_event`
returns after inserting the completed row, before the status write. -/
theorem reviewEvent_noOutstanding_notReviewed :
    (handleReviewEvent pendingReviewStore
        { pullRequest := some examplePayload, review := some approvedReview } 100).map
      (fun t => prStatus t "lightningdevkit/rust-lightning" 3700)
      = Except.ok (some PRStatus.pendingReview) ∧
    PRStatus.pendingReview ≠ PRStatus.reviewed := by decide

/-- C7 counterexample: converting the example PR to draft deletes its
already-completed review row, which the claim asserts is left unchanged. -/
theorem convertedToDraft_deletes_completed_row :
    completedRow.completedAt = some 40 ∧
    completedRow ∈ reviewedStore.reviews ∧
    completedRow ∉ (handleConvertedToDraft reviewedStore examplePayload).reviews := by decide

/-- C10 counterexample: a ready-for-review event for a tracked draft PR with
null `initial_comment_id` and one requested reviewer does not leave the
status at `Draft`: `_add_pending_review` sets it to `PENDING_REVIEW`. -/
theorem readyForReview_nullComment_status_changes :
    (handleReadyForReview draftNoCommentStore
        { examplePayload with requestedReviewers := ["jkczyz"] } 0).map
      (fun t => prStatus t "lightningdevkit/rust-lightning" 3700)
      = Except.ok (some PRStatus.pendingReview) ∧
    PRStatus.pendingReview ≠ PRStatus.draft := by decide

/-- Witness for C2: the replay theorem applied to the example store. -/
theorem reviewRequested_replay_idempotent_witness :
    ∃ s1, handleReviewRequested exampleStore examplePayload "jkczyz" 50 = .ok s1 ∧
      handleReviewRequested s1 examplePayload "jkczyz" 50 = .ok s1 ∧
      outstandingCount s1 "lightningdevkit/rust-lightning" 3700 "jkczyz" = 1 :=
  reviewRequested_replay_idempotent exampleStore examplePayload "jkczyz" 50 examplePR 3634
    rfl (by decide) rfl rfl (by decide)

/-- Witness for C3 (amended): the completion theorem applied to a store with
one outstanding row. -/
theorem reviewEvent_marks_outstanding_witness :
    ∃ s2, handleReviewEvent oneOutstandingStore
        { pullRequest := some examplePayload, review := some approvedReview } 100 = .ok s2 ∧
      prStatus s2 "lightningdevkit/rust-lightning" 3700 = some PRStatus.reviewed ∧
      outstandingCount s2 "lightningdevkit/rust-lightning" 3700 "jkczyz" = 0 ∧
      s2.reviews.length = oneOutstandingStore.reviews.length ∧
      (∀ r ∈ oneOutstandingStore.reviews,
        matchPending "lightningdevkit/rust-lightning" 3700 "jkczyz" r = true →
          markCompleted 100 approvedReview.htmlUrl r ∈ s2.reviews) :=
  reviewEvent_marks_outstanding_and_sets_reviewed oneOutstandingStore examplePayload
    approvedReview 100 3634 { examplePR with status := PRStatus.pendingReview }
    rfl (by decide) (by decide) (by decide) rfl (by decide)

/-- Witness for C7 (amended): the deletion theorem applied to the store with
one completed row. -/
theorem convertedToDraft_deletes_all_rows_witness :
    prStatus (handleConvertedToDraft reviewedStore examplePayload)
      "lightningdevkit/rust-lightning" 3700 = some PRStatus.draft :=
  (convertedToDraft_deletes_all_rows reviewedStore examplePayload
    { examplePR with status := PRStatus.reviewed } rfl).1

/-- Witness for C10 (amended): the null-comment-id theorem applied to the
draft store. -/
theorem readyForReview_nullComment_behavior_witness :
    handleReadyForReview draftNoCommentStore
      { examplePayload with requestedReviewers := [] } 0 = .ok draftNoCommentStore ∧
    ∃ s1, handleReadyForReview draftNoCommentStore
        { examplePayload with requestedReviewers := ["jkczyz"] } 0 = .ok s1 ∧
      prStatus s1 "lightningdevkit/rust-lightning" 3700 = some PRStatus.pendingReview ∧
      0 < outstandingCount s1 "lightningdevkit/rust-lightning" 3700 "jkczyz" :=
  readyForReview_nullComment_behavior draftNoCommentStore examplePayload
    { examplePR with status := PRStatus.draft, initialCommentId := none } "jkczyz" 0
    rfl rfl

end LdkBot
